import Mathlib

/-!
Verification of the Face Identification & Attendance Recording Engine
(`src/app.py`, endpoint `verify_face`, helper `send_attendance_notification`).

The embedding mirrors the Python source:
* similarity values are rationals (`ℚ`) standing for the Python floats;
* timestamps are integers (`ℤ`), counted in seconds, standing for
  `datetime` values (`datetime.utcnow()` and friends);
* fallible Python code (exceptions caught by the `except` block at
  app.py lines 508-511) is modelled with `Except String`.

Functions of this repository that live outside the provided sources
(`utils/face_utils.py`, `models/attendance.py`) are modelled from the
specification and marked as such in their doc comments.
-/

namespace FaceAttendance

/-- An employee identifier (`User.id`). -/
abbrev EmpId := Nat

/-- A face embedding: a fixed-length vector of floats
(app.py stores it as `np.float32` bytes and decodes with `np.frombuffer`). -/
abbrev Embedding := List ℚ

/-- The slice of a `User` row that `verify_face` reads: the id, the name and
the optional stored face embedding (`employee.face_embedding`, app.py:433-435). -/
structure Employee where
  empId : EmpId
  name : String
  faceEmbedding : Option Embedding
deriving DecidableEq

/-- Modelled from the spec: `compare_faces` lives in `utils/face_utils.py`,
which is not among the provided sources. Per the spec it computes a similarity
score between the probe and a stored embedding, and a dimensionality mismatch
is a fatal configuration error (the numpy operation raises, it does not return
a score). The numeric scoring function itself is abstracted as the `score`
parameter. -/
def compareFaces (score : Embedding → Embedding → ℚ) (probe stored : Embedding) :
    Except String ℚ :=
  if stored.length = probe.length then Except.ok (score probe stored)
  else Except.error "operands could not be broadcast together"

/-- One iteration of the matching loop of `verify_face` (app.py:432-441):
skip employees without a stored embedding, compare the rest against the probe,
and remember the employee whose similarity strictly exceeds the running best. -/
def matchStep (score : Embedding → Embedding → ℚ) (probe : Embedding)
    (acc : Option Employee × ℚ) (e : Employee) : Except String (Option Employee × ℚ) :=
  match e.faceEmbedding with
  | none => Except.ok acc
  | some stored =>
    match compareFaces score probe stored with
    | Except.error msg => Except.error msg
    | Except.ok sim =>
      if acc.2 < sim then Except.ok (some e, sim) else Except.ok acc

/-- The matching loop of `verify_face` (app.py:428-441): starting from
`best_match = None`, `highest_similarity = 0`, fold `matchStep` over the
employee roster. A raised comparison error aborts the whole loop, as a Python
exception would. -/
def findBest (score : Embedding → Embedding → ℚ) (probe : Embedding)
    (employees : List Employee) : Except String (Option Employee × ℚ) :=
  employees.foldlM (matchStep score probe) (none, 0)

/-- The acceptance test of app.py:444:
`if best_match and highest_similarity >= FACE_RECOGNITION_THRESHOLD`. -/
def acceptMatch (threshold : ℚ) (bm : Option Employee) (hi : ℚ) : Bool :=
  bm.isSome && decide (threshold ≤ hi)

/-- Exception-free version of `matchStep`, used to reason about `findBest`
when every stored embedding has the probe's dimensionality. -/
def pureStep (score : Embedding → Embedding → ℚ) (probe : Embedding)
    (acc : Option Employee × ℚ) (e : Employee) : Option Employee × ℚ :=
  match e.faceEmbedding with
  | none => acc
  | some stored =>
    if acc.2 < score probe stored then (some e, score probe stored) else acc

/-- Attendance status stored at session creation (app.py:453). -/
inductive AttStatus
  | present
  | late
deriving DecidableEq

/-- The slice of an `Attendance` row that `verify_face` reads and writes
(app.py:456-494). -/
structure Attendance where
  employeeId : EmpId
  timeIn : ℤ
  timeOut : Option ℤ
  status : AttStatus
  timestamp : ℤ
deriving DecidableEq

/-- The configuration `verify_face` reads from the environment
(app.py:40-42): the shift start as seconds after midnight, and the late
threshold in minutes. -/
structure Config where
  workStartSec : ℤ
  lateThresholdMinutes : ℤ
deriving DecidableEq

/-- The literal `600` of app.py:461 - "10 minutes in seconds". -/
def MIN_SESSION_DURATION : ℤ := 600

/-- The status classification of app.py:449-453:
`late_time = start_of_day + WORKING_HOURS_START + LATE_THRESHOLD_MINUTES`,
`status = 'present' if now <= late_time else 'late'`. -/
def classifyStatus (cfg : Config) (startOfDay now : ℤ) : AttStatus :=
  if now ≤ startOfDay + cfg.workStartSec + 60 * cfg.lateThresholdMinutes then
    AttStatus.present
  else AttStatus.late

/-- Modelled from the spec: `Attendance.set_time_out` lives in
`models/attendance.py`, which is not among the provided sources. Per the spec
the clock-out transition sets `time_out = now` and touches nothing else. -/
def setTimeOut (a : Attendance) (t : ℤ) : Attendance :=
  { a with timeOut := some t }

/-- Modelled from the spec: `Attendance.calculate_hours_worked` lives in
`models/attendance.py`, which is not among the provided sources. Per the spec
`hours_worked = (time_out - time_in) in hours`, fractional. -/
def calculateHoursWorked (a : Attendance) : ℚ :=
  match a.timeOut with
  | some t => ((t - a.timeIn : ℤ) : ℚ) / 3600
  | none => 0

/-- The elapsed-minutes display of app.py:464:
`int(time_diff.total_seconds() / 60)` - truncation toward zero. -/
def elapsedMinutes (diffSeconds : ℤ) : ℤ :=
  Int.tdiv diffSeconds 60

/-- The business outcome decided by the attendance state machine of
`verify_face`: one `jsonify` response per branch (app.py:462-504). -/
inductive Outcome
  | minimumTimeNotMet (elapsed : ℤ)
  | clockedOut (hoursWorked : ℚ)
  | alreadyMarked
  | clockedIn (status : AttStatus)
deriving DecidableEq

/-- The attendance state machine of `verify_face` (app.py:448-494), acting on
the ledger entry for the matched employee and the current day (`existing`,
the result of the query at app.py:456):
* open session, elapsed `< 600` seconds: reject, no mutation (app.py:461-467);
* open session, elapsed `>= 600` seconds: set `time_out = now`, commit,
  report hours worked (app.py:469-478);
* closed session: report "already marked", no mutation (app.py:479-484);
* no session: insert a fresh record with `time_in = now` and the status
  classified at creation time (app.py:486-504).
Returns the outcome together with the committed ledger entry. -/
def markAttendance (cfg : Config) (empId : EmpId) (startOfDay now : ℤ)
    (existing : Option Attendance) : Outcome × Option Attendance :=
  match existing with
  | some att =>
    match att.timeOut with
    | none =>
      if now - att.timeIn < MIN_SESSION_DURATION then
        (Outcome.minimumTimeNotMet (elapsedMinutes (now - att.timeIn)), some att)
      else
        let closed := setTimeOut att now
        (Outcome.clockedOut (calculateHoursWorked closed), some closed)
    | some _ => (Outcome.alreadyMarked, some att)
  | none =>
    let st := classifyStatus cfg startOfDay now
    (Outcome.clockedIn st,
     some { employeeId := empId, timeIn := now, timeOut := none,
            status := st, timestamp := now })

/-- `send_attendance_notification` (app.py:652-686): the whole body sits in a
`try`/`except` that logs the mail error and deliberately does not re-raise.
The delivery attempt itself (`mail.send`, an external collaborator) is the
`mailResult` parameter; the function returns the logged warning, if any. -/
def sendAttendanceNotification (mailResult : Except String Unit) : Option String :=
  match mailResult with
  | Except.ok _ => none
  | Except.error e => some ("Error sending email: " ++ e)

/-- The accepted-match tail of `verify_face` (app.py:445-504): run the state
machine, commit its ledger change, and only then fire the notification for the
clock-in and clock-out outcomes (app.py:470-472 and 494-497). The outcome and
the committed entry are fixed before the notification attempt; its swallowed
result only contributes a log line. -/
def processAccepted (cfg : Config) (empId : EmpId) (startOfDay now : ℤ)
    (existing : Option Attendance) (mailResult : Except String Unit) :
    Outcome × Option Attendance × Option String :=
  let r := markAttendance cfg empId startOfDay now existing
  let warning :=
    match r.1 with
    | Outcome.clockedOut _ => sendAttendanceNotification mailResult
    | Outcome.clockedIn _ => sendAttendanceNotification mailResult
    | _ => none
  (r.1, r.2, warning)

/-- Python's `str.split(',')` (app.py:422) on a character list: splits at every
comma, `"abc".split(',') == ["abc"]`, `"".split(',') == [""]`. -/
def splitOnComma : List Char → List (List Char)
  | [] => [[]]
  | c :: rest =>
    let r := splitOnComma rest
    if c = ',' then [] :: r
    else
      match r with
      | [] => [[c]]
      | h :: t => (c :: h) :: t

/-- The JSON responses `verify_face` can produce, one constructor per
`jsonify` call site (app.py:418, 425, 462, 473, 479, 499, 507, 511). -/
inductive VerifyResponse
  | noImage
  | genericError (msg : String)
  | noFaceDetected
  | notRecognized
  | business (name : String) (o : Outcome) (warning : Option String)
deriving DecidableEq

/-- The `verify_face` endpoint (app.py:414-511). `processImage` stands for
`utils.face_utils.process_image` (an external face-detection collaborator
returning `(face_box, embedding)`, either possibly `None`); `findExisting`
stands for the ledger query of app.py:456. The branch structure follows the
source:
* missing `image` key: "No image provided" (app.py:417-418);
* an image string that does not start with `'data:image'` leaves the local
  variable `image` unassigned, so app.py:423 raises `NameError`, caught by
  the handler at app.py:508-511;
* `split(',')[1]` on a comma-free string raises `IndexError`, same handler;
* a comparison error inside the matching loop propagates to the same handler;
* otherwise the acceptance test of app.py:444 picks between the attendance
  state machine and "Face not recognized". -/
def verifyFace (processImage : List Char → Option Unit × Option Embedding)
    (score : Embedding → Embedding → ℚ) (threshold : ℚ) (cfg : Config)
    (employees : List Employee) (findExisting : EmpId → Option Attendance)
    (startOfDay now : ℤ) (mailResult : Except String Unit)
    (imageField : Option (List Char)) :
    VerifyResponse × Option (EmpId × Option Attendance) :=
  match imageField with
  | none => (VerifyResponse.noImage, none)
  | some raw =>
    if ("data:image".toList).isPrefixOf raw then
      match (splitOnComma raw).get? 1 with
      | none => (VerifyResponse.genericError "list index out of range", none)
      | some payload =>
        match processImage payload with
        | (some _, some emb) =>
          match findBest score emb employees with
          | Except.error msg => (VerifyResponse.genericError msg, none)
          | Except.ok (bm, hi) =>
            match bm with
            | some employee =>
              if threshold ≤ hi then
                let r := processAccepted cfg employee.empId startOfDay now
                  (findExisting employee.empId) mailResult
                (VerifyResponse.business employee.name r.1 r.2.2,
                 some (employee.empId, r.2.1))
              else (VerifyResponse.notRecognized, none)
            | none => (VerifyResponse.notRecognized, none)
        | _ => (VerifyResponse.noFaceDetected, none)
    else
      (VerifyResponse.genericError "name 'image' is not defined", none)

/-! ### Helper lemmas about the matching loop -/

/-- When every stored embedding has the probe's dimensionality, the matching
loop raises no comparison error and agrees with the exception-free fold. -/
lemma foldlM_matchStep_ok (score : Embedding → Embedding → ℚ) (probe : Embedding) :
    ∀ (l : List Employee) (acc : Option Employee × ℚ),
      (∀ e ∈ l, ∀ emb, e.faceEmbedding = some emb → emb.length = probe.length) →
      List.foldlM (matchStep score probe) acc l =
        Except.ok (List.foldl (pureStep score probe) acc l)
  | [], _, _ => rfl
  | x :: l, acc, h => by
    have htail : ∀ e ∈ l, ∀ emb, e.faceEmbedding = some emb →
        emb.length = probe.length :=
      fun e he => h e (List.mem_cons_of_mem x he)
    have hstep : matchStep score probe acc x =
        Except.ok (pureStep score probe acc x) := by
      cases hface : x.faceEmbedding with
      | none => simp [matchStep, pureStep, hface]
      | some stored =>
        have hlen : stored.length = probe.length :=
          h x (List.mem_cons_self x l) stored hface
        by_cases hlt : acc.2 < score probe stored
        · simp [matchStep, pureStep, hface, compareFaces, hlen, hlt]
        · simp [matchStep, pureStep, hface, compareFaces, hlen, hlt]
    calc List.foldlM (matchStep score probe) acc (x :: l)
        = matchStep score probe acc x >>= fun s =>
            List.foldlM (matchStep score probe) s l := by
          simp [List.foldlM_cons]
      _ = List.foldlM (matchStep score probe) (pureStep score probe acc x) l := by
          rw [hstep]; rfl
      _ = Except.ok (List.foldl (pureStep score probe) acc (x :: l)) := by
          rw [List.foldl_cons]
          exact foldlM_matchStep_ok score probe l (pureStep score probe acc x) htail

/-- Invariant of the exception-free matching fold: the running best score never
decreases, bounds every score seen, and whenever the result differs from the
accumulator it names a candidate whose score equals the result score, strictly
exceeds the initial accumulator score, and strictly dominates every candidate
enumerated before it. -/
lemma foldl_pureStep_spec (score : Embedding → Embedding → ℚ) (probe : Embedding) :
    ∀ (l : List Employee) (acc : Option Employee × ℚ),
      acc.2 ≤ (List.foldl (pureStep score probe) acc l).2 ∧
      (∀ e ∈ l, ∀ emb, e.faceEmbedding = some emb →
        score probe emb ≤ (List.foldl (pureStep score probe) acc l).2) ∧
      (List.foldl (pureStep score probe) acc l = acc ∨
        ∃ pre e emb post, l = pre ++ e :: post ∧ e.faceEmbedding = some emb ∧
          (List.foldl (pureStep score probe) acc l).1 = some e ∧
          (List.foldl (pureStep score probe) acc l).2 = score probe emb ∧
          acc.2 < score probe emb ∧
          ∀ e' ∈ pre, ∀ emb', e'.faceEmbedding = some emb' →
            score probe emb' < score probe emb)
  | [], acc => by
    refine ⟨le_refl _, ?_, Or.inl rfl⟩
    intro e he
    exact absurd he (List.not_mem_nil e)
  | x :: l, acc => by
    cases hface : x.faceEmbedding with
    | none =>
      have hstep : pureStep score probe acc x = acc := by simp [pureStep, hface]
      have ih := foldl_pureStep_spec score probe l acc
      rw [List.foldl_cons, hstep]
      refine ⟨ih.1, ?_, ?_⟩
      · intro e he emb hemb
        rcases List.mem_cons.mp he with rfl | he'
        · rw [hface] at hemb; exact absurd hemb (by simp)
        · exact ih.2.1 e he' emb hemb
      · rcases ih.2.2 with h | ⟨pre, e, emb, post, hl, hf, h1, h2, h3, h4⟩
        · exact Or.inl h
        · refine Or.inr ⟨x :: pre, e, emb, post, by rw [hl, List.cons_append], hf, h1, h2, h3, ?_⟩
          intro e' he' emb' hemb'
          rcases List.mem_cons.mp he' with rfl | he''
          · rw [hface] at hemb'; exact absurd hemb' (by simp)
          · exact h4 e' he'' emb' hemb'
    | some stored =>
      by_cases hlt : acc.2 < score probe stored
      · have hstep : pureStep score probe acc x = (some x, score probe stored) := by
          simp [pureStep, hface, hlt]
        have ih := foldl_pureStep_spec score probe l (some x, score probe stored)
        rw [List.foldl_cons, hstep]
        refine ⟨le_of_lt (lt_of_lt_of_le hlt ih.1), ?_, ?_⟩
        · intro e he emb hemb
          rcases List.mem_cons.mp he with rfl | he'
          · rw [hface] at hemb
            obtain rfl : stored = emb := Option.some.inj hemb
            exact ih.1
          · exact ih.2.1 e he' emb hemb
        · rcases ih.2.2 with h | ⟨pre, e, emb, post, hl, hf, h1, h2, h3, h4⟩
          · refine Or.inr ⟨[], x, stored, l, rfl, hface, ?_, ?_, hlt, ?_⟩
            · rw [h]
            · rw [h]
            · intro e' he'
              exact absurd he' (List.not_mem_nil e')
          · refine Or.inr ⟨x :: pre, e, emb, post, by rw [hl, List.cons_append], hf, h1, h2,
              lt_trans hlt h3, ?_⟩
            intro e' he' emb' hemb'
            rcases List.mem_cons.mp he' with rfl | he''
            · rw [hface] at hemb'
              obtain rfl : stored = emb' := Option.some.inj hemb'
              exact h3
            · exact h4 e' he'' emb' hemb'
      · have hstep : pureStep score probe acc x = acc := by
          simp [pureStep, hface, hlt]
        have ih := foldl_pureStep_spec score probe l acc
        rw [List.foldl_cons, hstep]
        refine ⟨ih.1, ?_, ?_⟩
        · intro e he emb hemb
          rcases List.mem_cons.mp he with rfl | he'
          · rw [hface] at hemb
            obtain rfl : stored = emb := Option.some.inj hemb
            exact le_trans (le_of_not_lt hlt) ih.1
          · exact ih.2.1 e he' emb hemb
        · rcases ih.2.2 with h | ⟨pre, e, emb, post, hl, hf, h1, h2, h3, h4⟩
          · exact Or.inl h
          · refine Or.inr ⟨x :: pre, e, emb, post, by rw [hl, List.cons_append], hf, h1, h2, h3, ?_⟩
            intro e' he' emb' hemb'
            rcases List.mem_cons.mp he' with rfl | he''
            · rw [hface] at hemb'
              obtain rfl : stored = emb' := Option.some.inj hemb'
              exact lt_of_le_of_lt (le_of_not_lt hlt) h3
            · exact h4 e' he'' emb' hemb'

/-- Dimension-compatible rosters make `findBest` succeed with the value of the
exception-free fold. -/
lemma findBest_ok (score : Embedding → Embedding → ℚ) (probe : Embedding)
    (employees : List Employee)
    (hdim : ∀ e ∈ employees, ∀ emb, e.faceEmbedding = some emb →
      emb.length = probe.length) :
    findBest score probe employees =
      Except.ok (List.foldl (pureStep score probe) (none, 0) employees) :=
  foldlM_matchStep_ok score probe employees (none, 0) hdim

/-- Any enrolled embedding of the wrong dimensionality makes the matching loop
raise, regardless of where in the roster it sits. -/
lemma foldlM_matchStep_error (score : Embedding → Embedding → ℚ) (probe : Embedding) :
    ∀ (l : List Employee) (acc : Option Employee × ℚ),
      (∃ e ∈ l, ∃ stored, e.faceEmbedding = some stored ∧
        stored.length ≠ probe.length) →
      ∃ msg, List.foldlM (matchStep score probe) acc l = Except.error msg
  | [], _, h => absurd h (by simp)
  | x :: l, acc, h => by
    cases hface : x.faceEmbedding with
    | none =>
      have hstep : matchStep score probe acc x = Except.ok acc := by
        simp [matchStep, hface]
      obtain ⟨e, he, stored, hs, hne⟩ := h
      rcases List.mem_cons.mp he with rfl | he'
      · rw [hface] at hs; exact absurd hs (by simp)
      · obtain ⟨msg, hmsg⟩ :=
          foldlM_matchStep_error score probe l acc ⟨e, he', stored, hs, hne⟩
        refine ⟨msg, ?_⟩
        calc List.foldlM (matchStep score probe) acc (x :: l)
            = matchStep score probe acc x >>= fun s =>
                List.foldlM (matchStep score probe) s l := by
              simp [List.foldlM_cons]
          _ = List.foldlM (matchStep score probe) acc l := by rw [hstep]; rfl
          _ = Except.error msg := hmsg
    | some stored₀ =>
      by_cases hlen : stored₀.length = probe.length
      · have hstep : matchStep score probe acc x =
            Except.ok (pureStep score probe acc x) := by
          by_cases hlt : acc.2 < score probe stored₀
          · simp [matchStep, pureStep, hface, compareFaces, hlen, hlt]
          · simp [matchStep, pureStep, hface, compareFaces, hlen, hlt]
        obtain ⟨e, he, stored, hs, hne⟩ := h
        rcases List.mem_cons.mp he with rfl | he'
        · rw [hface] at hs
          obtain rfl : stored₀ = stored := Option.some.inj hs
          exact absurd hlen hne
        · obtain ⟨msg, hmsg⟩ := foldlM_matchStep_error score probe l
            (pureStep score probe acc x) ⟨e, he', stored, hs, hne⟩
          refine ⟨msg, ?_⟩
          calc List.foldlM (matchStep score probe) acc (x :: l)
              = matchStep score probe acc x >>= fun s =>
                  List.foldlM (matchStep score probe) s l := by
                simp [List.foldlM_cons]
            _ = List.foldlM (matchStep score probe)
                  (pureStep score probe acc x) l := by rw [hstep]; rfl
            _ = Except.error msg := hmsg
      · refine ⟨"operands could not be broadcast together", ?_⟩
        have hstep : matchStep score probe acc x =
            Except.error "operands could not be broadcast together" := by
          simp [matchStep, hface, compareFaces, hlen]
        calc List.foldlM (matchStep score probe) acc (x :: l)
            = matchStep score probe acc x >>= fun s =>
                List.foldlM (matchStep score probe) s l := by
              simp [List.foldlM_cons]
          _ = Except.error "operands could not be broadcast together" := by
              rw [hstep]; rfl

/-! ### Matcher claims -/

/-- C1 counterexample: with threshold `0` and one enrolled candidate whose
similarity is exactly `0`, the best similarity score reaches the threshold
(`0 >= 0`), yet `verify_face` rejects: `highest_similarity` starts at `0` and
`best_match` is only set on a strict improvement (`similarity > 0` fails), so
the acceptance test `best_match and highest_similarity >= threshold` is false.
The claim "accepts iff the best score is >= t, for every threshold t" is
therefore false as stated. -/
theorem identify_zero_threshold_cex :
    findBest (fun _ _ => 0) [2] [⟨1, "a", some [3]⟩] = Except.ok (none, 0) ∧
    (∃ e ∈ [(⟨1, "a", some [3]⟩ : Employee)], ∃ emb,
      e.faceEmbedding = some emb ∧ (0 : ℚ) ≤ (fun _ _ => (0 : ℚ)) [2] emb) ∧
    acceptMatch 0 none 0 = false := by
  refine ⟨rfl, ⟨⟨1, "a", some [3]⟩, List.mem_singleton_self _, [3], rfl, ?_⟩, by decide⟩
  norm_num

/-- C1 (amended): for every strictly positive threshold `t`, every probe and
every roster whose stored embeddings match the probe's dimensionality, the
matching loop of `verify_face` succeeds and its acceptance test passes iff
some enrolled candidate scores at least `t`; with an empty roster the result
is `best_match = None` and rejection, never an error. -/
theorem identify_accepts_iff_best_above_threshold
    (score : Embedding → Embedding → ℚ) (probe : Embedding)
    (employees : List Employee) (t : ℚ) (ht : 0 < t)
    (hdim : ∀ e ∈ employees, ∀ emb, e.faceEmbedding = some emb →
      emb.length = probe.length) :
    ∃ bm hi, findBest score probe employees = Except.ok (bm, hi) ∧
      (acceptMatch t bm hi = true ↔
        ∃ e ∈ employees, ∃ emb, e.faceEmbedding = some emb ∧
          t ≤ score probe emb) ∧
      (employees = [] → bm = none ∧ acceptMatch t bm hi = false) := by
  have hok := findBest_ok score probe employees hdim
  obtain ⟨h0, hub, hdec⟩ :=
    foldl_pureStep_spec score probe employees ((none : Option Employee), (0 : ℚ))
  refine ⟨(List.foldl (pureStep score probe) (none, 0) employees).1,
    (List.foldl (pureStep score probe) (none, 0) employees).2, by rw [hok], ?_, ?_⟩
  · constructor
    · intro hacc
      have hsome : (List.foldl (pureStep score probe) (none, 0) employees).1.isSome
          = true ∧ t ≤ (List.foldl (pureStep score probe) (none, 0) employees).2 := by
        simpa [acceptMatch, Bool.and_eq_true, decide_eq_true_eq] using hacc
      rcases hdec with h | ⟨pre, e, emb, post, hl, hf, h1, h2, h3, h4⟩
      · rw [h] at hsome
        simp at hsome
      · refine ⟨e, ?_, emb, hf, ?_⟩
        · rw [hl]
          exact List.mem_append_right _ (List.mem_cons_self e post)
        · rw [← h2]
          exact hsome.2
    · rintro ⟨e, he, emb, hemb, hle⟩
      have ht2 : t ≤ (List.foldl (pureStep score probe) (none, 0) employees).2 :=
        le_trans hle (hub e he emb hemb)
      have hsome : (List.foldl (pureStep score probe) (none, 0) employees).1.isSome
          = true := by
        rcases hdec with h | ⟨pre, e', emb', post, hl, hf, h1, h2, h3, h4⟩
        · exfalso
          rw [h] at ht2
          have ht2' : t ≤ 0 := ht2
          exact absurd ht (not_lt.mpr ht2')
        · rw [h1]
          rfl
      simp [acceptMatch, hsome, ht2]
  · intro hnil
    subst hnil
    exact ⟨rfl, by simp [acceptMatch]⟩

/-- C1 witness: threshold `1`, one candidate scoring `1`: the theorem's
equivalence holds at this concrete input. -/
theorem identify_accepts_iff_best_above_threshold_witness :
    ∃ bm hi, findBest (fun _ _ => 1) [2] [⟨1, "a", some [3]⟩] = Except.ok (bm, hi) ∧
      (acceptMatch 1 bm hi = true ↔
        ∃ e ∈ [(⟨1, "a", some [3]⟩ : Employee)], ∃ emb,
          e.faceEmbedding = some emb ∧ (1 : ℚ) ≤ (fun _ _ => (1 : ℚ)) [2] emb) ∧
      ([(⟨1, "a", some [3]⟩ : Employee)] = [] → bm = none ∧
        acceptMatch 1 bm hi = false) :=
  identify_accepts_iff_best_above_threshold (fun _ _ => 1) [2]
    [⟨1, "a", some [3]⟩] 1 one_pos (by
      intro e he emb hemb
      rw [List.mem_singleton] at he
      subst he
      obtain rfl : [3] = emb := Option.some.inj hemb
      rfl)

/-- C2: whenever the matching loop of `verify_face` returns a best match, that
employee is a roster member carrying an embedding whose score equals the
reported highest similarity, and no enrolled candidate scores higher - in
particular a candidate with a strictly lower score than some other candidate
is never returned. -/
theorem identify_selects_maximum
    (score : Embedding → Embedding → ℚ) (probe : Embedding)
    (employees : List Employee) (e : Employee) (hi : ℚ)
    (hdim : ∀ e' ∈ employees, ∀ emb, e'.faceEmbedding = some emb →
      emb.length = probe.length)
    (hres : findBest score probe employees = Except.ok (some e, hi)) :
    e ∈ employees ∧
    (∃ emb, e.faceEmbedding = some emb ∧ score probe emb = hi) ∧
    ∀ e' ∈ employees, ∀ emb', e'.faceEmbedding = some emb' →
      score probe emb' ≤ hi := by
  have hok := findBest_ok score probe employees hdim
  rw [hok] at hres
  have hres' : List.foldl (pureStep score probe) (none, 0) employees = (some e, hi) :=
    Except.ok.inj hres
  obtain ⟨h0, hub, hdec⟩ :=
    foldl_pureStep_spec score probe employees ((none : Option Employee), (0 : ℚ))
  rw [hres'] at hub hdec
  rcases hdec with h | ⟨pre, e₀, emb, post, hl, hf, h1, h2, h3, h4⟩
  · simp at h
  · obtain rfl : e = e₀ := Option.some.inj h1
    have h2' : hi = score probe emb := h2
    refine ⟨?_, ⟨emb, hf, h2'.symm⟩, ?_⟩
    · rw [hl]
      exact List.mem_append_right _ (List.mem_cons_self e post)
    · intro e' he' emb' hemb'
      exact hub e' he' emb' hemb'

/-- C2 witness: two candidates scoring `1` and `2`; the loop returns the
second, whose score is maximal. -/
theorem identify_selects_maximum_witness :
    (⟨2, "b", some [5]⟩ : Employee) ∈
      [(⟨1, "a", some [3]⟩ : Employee), ⟨2, "b", some [5]⟩] ∧
    (∃ emb, (⟨2, "b", some [5]⟩ : Employee).faceEmbedding = some emb ∧
      (fun _ c => if c = [5] then (2 : ℚ) else 1) [9] emb = 2) ∧
    ∀ e' ∈ [(⟨1, "a", some [3]⟩ : Employee), ⟨2, "b", some [5]⟩], ∀ emb',
      e'.faceEmbedding = some emb' →
        (fun _ c => if c = [5] then (2 : ℚ) else 1) [9] emb' ≤ 2 :=
  identify_selects_maximum (fun _ c => if c = [5] then (2 : ℚ) else 1) [9]
    [⟨1, "a", some [3]⟩, ⟨2, "b", some [5]⟩] ⟨2, "b", some [5]⟩ 2
    (by
      intro e' he' emb hemb
      rcases List.mem_cons.mp he' with rfl | he''
      · obtain rfl : [3] = emb := Option.some.inj hemb
        rfl
      · rw [List.mem_singleton] at he''
        subst he''
        obtain rfl : [5] = emb := Option.some.inj hemb
        rfl)
    (by rfl)

/-- C10: whenever the matching loop of `verify_face` returns a best match, the
roster splits as `pre ++ matched :: post` where the matched employee carries an
embedding scoring exactly the reported (strictly positive) highest similarity,
and every enrolled candidate enumerated before it scores strictly lower - so
on a tie at the maximum the first-seen candidate wins (the strict `>` never
replaces an earlier equal-scoring best match), and an employee without a
stored embedding is never the match. -/
theorem identify_first_seen_wins
    (score : Embedding → Embedding → ℚ) (probe : Embedding)
    (employees : List Employee) (e : Employee) (hi : ℚ)
    (hdim : ∀ e' ∈ employees, ∀ emb, e'.faceEmbedding = some emb →
      emb.length = probe.length)
    (hres : findBest score probe employees = Except.ok (some e, hi)) :
    ∃ pre post emb, employees = pre ++ e :: post ∧
      e.faceEmbedding = some emb ∧ score probe emb = hi ∧ 0 < hi ∧
      ∀ e' ∈ pre, ∀ emb', e'.faceEmbedding = some emb' →
        score probe emb' < hi := by
  have hok := findBest_ok score probe employees hdim
  rw [hok] at hres
  have hres' : List.foldl (pureStep score probe) (none, 0) employees = (some e, hi) :=
    Except.ok.inj hres
  obtain ⟨h0, hub, hdec⟩ :=
    foldl_pureStep_spec score probe employees ((none : Option Employee), (0 : ℚ))
  rw [hres'] at hdec
  rcases hdec with h | ⟨pre, e₀, emb, post, hl, hf, h1, h2, h3, h4⟩
  · simp at h
  · obtain rfl : e = e₀ := Option.some.inj h1
    have h2' : hi = score probe emb := h2
    have h3' : (0 : ℚ) < score probe emb := h3
    refine ⟨pre, post, emb, hl, hf, h2'.symm, by rw [h2']; exact h3', ?_⟩
    intro e' he' emb' hemb'
    rw [h2']
    exact h4 e' he' emb' hemb'

/-- C10 witness: two candidates tied at score `1` plus an employee without an
embedding in front; the loop returns the first tied candidate, with the
embedding-less employee in `pre`. -/
theorem identify_first_seen_wins_witness :
    ∃ pre post emb,
      [(⟨7, "n", none⟩ : Employee), ⟨1, "a", some [3]⟩, ⟨2, "b", some [5]⟩] =
        pre ++ (⟨1, "a", some [3]⟩ : Employee) :: post ∧
      (⟨1, "a", some [3]⟩ : Employee).faceEmbedding = some emb ∧
      (fun _ _ => (1 : ℚ)) [9] emb = 1 ∧ (0 : ℚ) < 1 ∧
      ∀ e' ∈ pre, ∀ emb', e'.faceEmbedding = some emb' →
        (fun _ _ => (1 : ℚ)) [9] emb' < 1 :=
  identify_first_seen_wins (fun _ _ => (1 : ℚ)) [9]
    [⟨7, "n", none⟩, ⟨1, "a", some [3]⟩, ⟨2, "b", some [5]⟩]
    ⟨1, "a", some [3]⟩ 1
    (by
      intro e' he' emb hemb
      rcases List.mem_cons.mp he' with rfl | he₂
      · exact absurd hemb (by simp)
      rcases List.mem_cons.mp he₂ with rfl | he₃
      · obtain rfl : [3] = emb := Option.some.inj hemb
        rfl
      · rw [List.mem_singleton] at he₃
        subst he₃
        obtain rfl : [5] = emb := Option.some.inj hemb
        rfl)
    (by rfl)

/-! ### Attendance state machine claims -/

/-- C3: once today's session is closed (`time_out` set), every further
accepted event for that employee today takes the "already marked" branch
(app.py:479-484) and returns the ledger entry unchanged, so `time_out` is
never mutated again: create-then-close is idempotent-once. -/
theorem closed_session_idempotent (cfg : Config) (empId : EmpId)
    (startOfDay now : ℤ) (att : Attendance) (t : ℤ)
    (hclosed : att.timeOut = some t) :
    markAttendance cfg empId startOfDay now (some att) =
      (Outcome.alreadyMarked, some att) ∧
    ∀ att', (markAttendance cfg empId startOfDay now (some att)).2 = some att' →
      att'.timeOut = some t := by
  have h : markAttendance cfg empId startOfDay now (some att) =
      (Outcome.alreadyMarked, some att) := by
    simp [markAttendance, hclosed]
  refine ⟨h, ?_⟩
  intro att' hatt'
  rw [h] at hatt'
  obtain rfl : att = att' := Option.some.inj hatt'
  exact hclosed

/-- C3 witness: a session closed at time `700` stays closed and reports
"already marked" on a later event. -/
theorem closed_session_idempotent_witness :
    markAttendance ⟨32400, 30⟩ 1 0 5000
        (some ⟨1, 0, some 700, AttStatus.present, 0⟩) =
      (Outcome.alreadyMarked, some ⟨1, 0, some 700, AttStatus.present, 0⟩) ∧
    ∀ att', (markAttendance ⟨32400, 30⟩ 1 0 5000
        (some ⟨1, 0, some 700, AttStatus.present, 0⟩)).2 = some att' →
      att'.timeOut = some 700 :=
  closed_session_idempotent ⟨32400, 30⟩ 1 0 5000
    ⟨1, 0, some 700, AttStatus.present, 0⟩ 700 rfl

/-- C4: on an open session, an event at exactly `MIN_SESSION_DURATION`
elapsed is not rejected - the guard of app.py:461 is `< 600`, so `>= 600`
clocks out and sets `time_out = now` - while an event one second earlier is
rejected. -/
theorem min_duration_boundary (cfg : Config) (empId : EmpId)
    (startOfDay : ℤ) (att : Attendance) (now₁ now₂ : ℤ)
    (hopen : att.timeOut = none)
    (h₁ : now₁ - att.timeIn = MIN_SESSION_DURATION)
    (h₂ : now₂ - att.timeIn = MIN_SESSION_DURATION - 1) :
    markAttendance cfg empId startOfDay now₁ (some att) =
      (Outcome.clockedOut (calculateHoursWorked (setTimeOut att now₁)),
       some (setTimeOut att now₁)) ∧
    markAttendance cfg empId startOfDay now₂ (some att) =
      (Outcome.minimumTimeNotMet (elapsedMinutes (now₂ - att.timeIn)),
       some att) := by
  constructor
  · have hnot : ¬ now₁ - att.timeIn < MIN_SESSION_DURATION := by
      rw [h₁]
      exact lt_irrefl _
    simp [markAttendance, hopen, hnot]
  · have hlt : now₂ - att.timeIn < MIN_SESSION_DURATION := by
      rw [h₂]
      norm_num [MIN_SESSION_DURATION]
    simp [markAttendance, hopen, hlt]

/-- C4 witness: clock-in at `0`, clock-out attempts at `600` (accepted,
`time_out` set, 1/6 of an hour worked) and `599` (rejected with 9 elapsed
minutes). -/
theorem min_duration_boundary_witness :
    markAttendance ⟨32400, 30⟩ 1 0 600
        (some ⟨1, 0, none, AttStatus.present, 0⟩) =
      (Outcome.clockedOut (calculateHoursWorked
        (setTimeOut ⟨1, 0, none, AttStatus.present, 0⟩ 600)),
       some (setTimeOut ⟨1, 0, none, AttStatus.present, 0⟩ 600)) ∧
    markAttendance ⟨32400, 30⟩ 1 0 599
        (some ⟨1, 0, none, AttStatus.present, 0⟩) =
      (Outcome.minimumTimeNotMet (elapsedMinutes (599 - 0)),
       some ⟨1, 0, none, AttStatus.present, 0⟩) :=
  min_duration_boundary ⟨32400, 30⟩ 1 0 ⟨1, 0, none, AttStatus.present, 0⟩
    600 599 rfl (by decide) (by decide)

/-- C5: on an open session, an event with `now - time_in < MIN_SESSION_DURATION`
is rejected with the truncated elapsed minutes (app.py:461-467) and the
returned ledger entry is the existing session itself: `time_in`, `time_out`
and `status` are untouched. -/
theorem too_soon_no_mutation (cfg : Config) (empId : EmpId)
    (startOfDay now : ℤ) (att : Attendance)
    (hopen : att.timeOut = none)
    (hsoon : now - att.timeIn < MIN_SESSION_DURATION) :
    markAttendance cfg empId startOfDay now (some att) =
      (Outcome.minimumTimeNotMet (elapsedMinutes (now - att.timeIn)),
       some att) := by
  simp [markAttendance, hopen, hsoon]

/-- C5 witness: the spec's Scenario B numbers - clock-in at `0`, retry at
`300` seconds: rejected with 5 elapsed minutes and an unchanged session. -/
theorem too_soon_no_mutation_witness :
    markAttendance ⟨32400, 30⟩ 1 0 300
        (some ⟨1, 0, none, AttStatus.present, 0⟩) =
      (Outcome.minimumTimeNotMet 5,
       some ⟨1, 0, none, AttStatus.present, 0⟩) :=
  (too_soon_no_mutation ⟨32400, 30⟩ 1 0 300
    ⟨1, 0, none, AttStatus.present, 0⟩ rfl (by decide)).trans (by decide)

/-- C6: a first accepted event of the day creates the session with status
computed by the classification of app.py:449-453, which is `late` iff
`now > start_of_day + shift_start + 60 * late_threshold_minutes`; and no
transition on an existing session (rejection, clock-out or duplicate) ever
changes the stored status, so the classification is evaluated exactly once,
at creation time. -/
theorem status_classified_once_at_creation (cfg : Config) (empId : EmpId)
    (startOfDay now : ℤ) :
    (markAttendance cfg empId startOfDay now none).1 =
      Outcome.clockedIn (classifyStatus cfg startOfDay now) ∧
    (markAttendance cfg empId startOfDay now none).2.map Attendance.status =
      some (classifyStatus cfg startOfDay now) ∧
    (classifyStatus cfg startOfDay now = AttStatus.late ↔
      startOfDay + cfg.workStartSec + 60 * cfg.lateThresholdMinutes < now) ∧
    ∀ (att : Attendance) (later : ℤ),
      (markAttendance cfg empId startOfDay later (some att)).2.map
        Attendance.status = some att.status := by
  refine ⟨rfl, rfl, ?_, ?_⟩
  · unfold classifyStatus
    by_cases h : now ≤ startOfDay + cfg.workStartSec + 60 * cfg.lateThresholdMinutes
    · simp [h, not_lt.mpr h]
    · simp [h, not_le.mp h]
  · intro att later
    cases hout : att.timeOut with
    | none =>
      by_cases hlt : later - att.timeIn < MIN_SESSION_DURATION
      · simp [markAttendance, hout, hlt]
      · simp [markAttendance, hout, hlt, setTimeOut]
    | some t => simp [markAttendance, hout]

/-- C7: the outcome decided by the attendance state machine and the committed
ledger entry are the same whatever the mail delivery result: the commit of
app.py:470/494 happens before `send_attendance_notification` runs, and that
helper catches every delivery error (app.py:684-686), so a notification
failure can neither roll back the transition nor change the outcome. -/
theorem notification_failure_never_alters_outcome (cfg : Config)
    (empId : EmpId) (startOfDay now : ℤ) (existing : Option Attendance)
    (r₁ r₂ : Except String Unit) :
    (processAccepted cfg empId startOfDay now existing r₁).1 =
      (processAccepted cfg empId startOfDay now existing r₂).1 ∧
    (processAccepted cfg empId startOfDay now existing r₁).2.1 =
      (processAccepted cfg empId startOfDay now existing r₂).2.1 := by
  simp [processAccepted]

/-! ### Endpoint claims -/

/-- C8: when the probe embedding's dimensionality differs from some enrolled
embedding, the comparison raises, the exception propagates out of the matching
loop to the handler of app.py:508-511, and `verify_face` answers with the
logged internal `Error: ...` response - never with the business rejection
"Face not recognized", never with "No face detected", and never with a match. -/
theorem dimension_mismatch_is_fatal
    (processImage : List Char → Option Unit × Option Embedding)
    (score : Embedding → Embedding → ℚ) (threshold : ℚ) (cfg : Config)
    (employees : List Employee) (findExisting : EmpId → Option Attendance)
    (startOfDay now : ℤ) (mailResult : Except String Unit)
    (raw payload : List Char) (emb : Embedding)
    (hpre : ("data:image".toList).isPrefixOf raw = true)
    (hsplit : (splitOnComma raw).get? 1 = some payload)
    (himg : processImage payload = (some (), some emb))
    (hmis : ∃ e ∈ employees, ∃ stored, e.faceEmbedding = some stored ∧
      stored.length ≠ emb.length) :
    (∃ msg, verifyFace processImage score threshold cfg employees findExisting
        startOfDay now mailResult (some raw) =
      (VerifyResponse.genericError msg, none)) ∧
    (verifyFace processImage score threshold cfg employees findExisting
        startOfDay now mailResult (some raw)).1 ≠
      VerifyResponse.notRecognized ∧
    (verifyFace processImage score threshold cfg employees findExisting
        startOfDay now mailResult (some raw)).1 ≠
      VerifyResponse.noFaceDetected ∧
    ∀ nm o w, (verifyFace processImage score threshold cfg employees
        findExisting startOfDay now mailResult (some raw)).1 ≠
      VerifyResponse.business nm o w := by
  obtain ⟨msg, hmsg⟩ := foldlM_matchStep_error score emb employees (none, 0) hmis
  have herr : findBest score emb employees = Except.error msg := hmsg
  have hres : verifyFace processImage score threshold cfg employees findExisting
      startOfDay now mailResult (some raw) =
      (VerifyResponse.genericError msg, none) := by
    simp only [verifyFace, hpre, if_true, hsplit, himg, herr]
  refine ⟨⟨msg, hres⟩, ?_, ?_, ?_⟩
  · rw [hres]
    simp
  · rw [hres]
    simp
  · intro nm o w
    rw [hres]
    simp

/-- C8 witness: a 1-dimensional probe against a roster holding a
2-dimensional enrolled embedding ends in the generic error response. -/
theorem dimension_mismatch_is_fatal_witness :
    (∃ msg, verifyFace (fun _ => (some (), some [0])) (fun _ _ => 1) 1 ⟨32400, 30⟩
        [⟨1, "e", some [0, 0]⟩] (fun _ => none) 0 0 (Except.ok ())
        (some "data:image,AA".toList) =
      (VerifyResponse.genericError msg, none)) ∧
    (verifyFace (fun _ => (some (), some [0])) (fun _ _ => 1) 1 ⟨32400, 30⟩
        [⟨1, "e", some [0, 0]⟩] (fun _ => none) 0 0 (Except.ok ())
        (some "data:image,AA".toList)).1 ≠ VerifyResponse.notRecognized ∧
    (verifyFace (fun _ => (some (), some [0])) (fun _ _ => 1) 1 ⟨32400, 30⟩
        [⟨1, "e", some [0, 0]⟩] (fun _ => none) 0 0 (Except.ok ())
        (some "data:image,AA".toList)).1 ≠ VerifyResponse.noFaceDetected ∧
    ∀ nm o w, (verifyFace (fun _ => (some (), some [0])) (fun _ _ => 1) 1
        ⟨32400, 30⟩ [⟨1, "e", some [0, 0]⟩] (fun _ => none) 0 0 (Except.ok ())
        (some "data:image,AA".toList)).1 ≠ VerifyResponse.business nm o w :=
  dimension_mismatch_is_fatal (fun _ => (some (), some [0])) (fun _ _ => 1) 1
    ⟨32400, 30⟩ [⟨1, "e", some [0, 0]⟩] (fun _ => none) 0 0 (Except.ok ())
    "data:image,AA".toList "AA".toList [0] (by decide) (by decide) rfl
    ⟨⟨1, "e", some [0, 0]⟩, List.mem_singleton_self _, [0, 0], rfl, by decide⟩

/-- C9: an image string that does not start with `'data:image'` leaves the
local variable `image` unassigned in `verify_face`, so app.py:423 raises
`NameError` before the embedding provider can be called; the handler of
app.py:508-511 turns this into the generic `Error: ...` response. The result
is the same for every embedding provider, is never "No face detected", never
"Face not recognized", and never a recognition outcome. -/
theorem unprefixed_image_never_reaches_provider
    (f g : List Char → Option Unit × Option Embedding)
    (score : Embedding → Embedding → ℚ) (threshold : ℚ) (cfg : Config)
    (employees : List Employee) (findExisting : EmpId → Option Attendance)
    (startOfDay now : ℤ) (mailResult : Except String Unit) (raw : List Char)
    (hpre : ("data:image".toList).isPrefixOf raw = false) :
    verifyFace f score threshold cfg employees findExisting startOfDay now
        mailResult (some raw) =
      (VerifyResponse.genericError "name 'image' is not defined", none) ∧
    verifyFace f score threshold cfg employees findExisting startOfDay now
        mailResult (some raw) =
      verifyFace g score threshold cfg employees findExisting startOfDay now
        mailResult (some raw) ∧
    (verifyFace f score threshold cfg employees findExisting startOfDay now
        mailResult (some raw)).1 ≠ VerifyResponse.noFaceDetected ∧
    (verifyFace f score threshold cfg employees findExisting startOfDay now
        mailResult (some raw)).1 ≠ VerifyResponse.notRecognized ∧
    ∀ nm o w, (verifyFace f score threshold cfg employees findExisting
        startOfDay now mailResult (some raw)).1 ≠
      VerifyResponse.business nm o w := by
  have hf : verifyFace f score threshold cfg employees findExisting startOfDay
      now mailResult (some raw) =
      (VerifyResponse.genericError "name 'image' is not defined", none) := by
    simp only [verifyFace, hpre, Bool.false_eq_true, if_false]
  have hg : verifyFace g score threshold cfg employees findExisting startOfDay
      now mailResult (some raw) =
      (VerifyResponse.genericError "name 'image' is not defined", none) := by
    simp only [verifyFace, hpre, Bool.false_eq_true, if_false]
  refine ⟨hf, hf.trans hg.symm, ?_, ?_, ?_⟩
  · rw [hf]
    simp
  · rw [hf]
    simp
  · intro nm o w
    rw [hf]
    simp

/-- C9 witness: the image string `"hello"` triggers the `NameError` path for
two different embedding providers. -/
theorem unprefixed_image_never_reaches_provider_witness :
    verifyFace (fun _ => (some (), some [0])) (fun _ _ => 1) 1 ⟨32400, 30⟩
        [⟨1, "e", some [0]⟩] (fun _ => none) 0 0 (Except.ok ())
        (some "hello".toList) =
      (VerifyResponse.genericError "name 'image' is not defined", none) ∧
    verifyFace (fun _ => (some (), some [0])) (fun _ _ => 1) 1 ⟨32400, 30⟩
        [⟨1, "e", some [0]⟩] (fun _ => none) 0 0 (Except.ok ())
        (some "hello".toList) =
      verifyFace (fun _ => (none, none)) (fun _ _ => 1) 1 ⟨32400, 30⟩
        [⟨1, "e", some [0]⟩] (fun _ => none) 0 0 (Except.ok ())
        (some "hello".toList) ∧
    (verifyFace (fun _ => (some (), some [0])) (fun _ _ => 1) 1 ⟨32400, 30⟩
        [⟨1, "e", some [0]⟩] (fun _ => none) 0 0 (Except.ok ())
        (some "hello".toList)).1 ≠ VerifyResponse.noFaceDetected ∧
    (verifyFace (fun _ => (some (), some [0])) (fun _ _ => 1) 1 ⟨32400, 30⟩
        [⟨1, "e", some [0]⟩] (fun _ => none) 0 0 (Except.ok ())
        (some "hello".toList)).1 ≠ VerifyResponse.notRecognized ∧
    ∀ nm o w, (verifyFace (fun _ => (some (), some [0])) (fun _ _ => 1) 1
        ⟨32400, 30⟩ [⟨1, "e", some [0]⟩] (fun _ => none) 0 0 (Except.ok ())
        (some "hello".toList)).1 ≠ VerifyResponse.business nm o w :=
  unprefixed_image_never_reaches_provider (fun _ => (some (), some [0]))
    (fun _ => (none, none)) (fun _ _ => 1) 1 ⟨32400, 30⟩ [⟨1, "e", some [0]⟩]
    (fun _ => none) 0 0 (Except.ok ()) "hello".toList (by decide)

end FaceAttendance
